import Mathlib

/-!
Verification of `machina/nets/simple_net.py`.

The file shallowly embeds the network modules of the repository:

* a construction-time view (`LayerInit`, the `*.construct` functions) recording,
  for every affine sub-layer, its fan-in/fan-out and the history of weight
  initializers applied to it.  `mini_weight_init` and `weight_init` mirror the
  two initializer functions at the top of `simple_net.py`; a freshly created
  `nn.Linear` carries the numerical library's own default initializer.
  Because the initializers draw random values, we do not generate weights:
  instead `InitKind.validWeight` / `InitKind.validBias` characterise exactly
  the values each initializer can produce (uniform ranges), and theorems
  quantify over all valid draws.

* a value-level view (`Linear`, the `*.forward` functions) over rationals,
  batch dimension collapsed to a single row (every batched operation in the
  source acts row-wise).  The out-of-scope numerical primitives `exp` and
  `tanh` are passed in as function parameters `expQ`/`tanhQ`; the LSTM cell
  (an external `nn.LSTMCell`) is a function field of the recurrent modules.
-/

/-! ## Construction-time initialization model -/

/-- The three weight initializers that can touch a layer: the library default
applied when a `nn.Linear`/`nn.LSTMCell` is created, `weight_init`
(`kaiming_uniform_` with its default gain) and `mini_weight_init`
(uniform in `[-3e-3, 3e-3]`). -/
inductive InitKind
  | torchDefault
  | kaiming
  | mini
  deriving DecidableEq, Repr

/-- Construction-time record of one affine sub-layer: its shape and the
initializers applied to it, in order (creation-time default first). -/
structure LayerInit where
  fanIn : ℕ
  fanOut : ℕ
  inits : List InitKind
  deriving DecidableEq, Repr

/-- Embeds `nn.Linear(fanIn, fanOut)`: creation runs the library default initializer. -/
def nnLinear (fanIn fanOut : ℕ) : LayerInit :=
  ⟨fanIn, fanOut, [InitKind.torchDefault]⟩

/-- Embeds `nn.LSTMCell(inputSize, hiddenSize)`: its parameters also start with the
library default initializer, and the class-name check in the two initializer
functions (`== 'Linear'`) means they never touch it. -/
def nnLSTMCell (inputSize hiddenSize : ℕ) : LayerInit :=
  ⟨inputSize, hiddenSize, [InitKind.torchDefault]⟩

/-- Re-initializing a layer appends to its initializer history. -/
def applyInit (k : InitKind) (l : LayerInit) : LayerInit :=
  { l with inits := l.inits ++ [k] }

/-- Embeds `mini_weight_init` (simple_net.py lines 7-10): weights uniform in
`[-3e-3, 3e-3]`, bias zero. -/
def mini_weight_init (l : LayerInit) : LayerInit :=
  applyInit InitKind.mini l

/-- Embeds `weight_init` (simple_net.py lines 12-15): `kaiming_uniform_` on the
weights, bias zero. -/
def weight_init (l : LayerInit) : LayerInit :=
  applyInit InitKind.kaiming l

/-- The initializer currently in effect for a layer (the last one applied;
each initializer fully overwrites weights and bias). -/
def LayerInit.current (l : LayerInit) : InitKind :=
  l.inits.getLastD InitKind.torchDefault

/-- The set of weight values an initializer can produce, given the layer's
fan-in.  `mini` draws uniformly from `[-3e-3, 3e-3]`.  `kaiming`
(`kaiming_uniform_`, default gain `sqrt 2`) draws from
`[-sqrt (6 / fanIn), sqrt (6 / fanIn)]`, stated squared to stay in `ℚ`.
The library default for `nn.Linear` uses gain for `a = sqrt 5`, giving
bound `1 / sqrt fanIn`. -/
def InitKind.validWeight : InitKind → ℕ → ℚ → Prop
  | InitKind.mini, _, w => -(3/1000) ≤ w ∧ w ≤ 3/1000
  | InitKind.kaiming, fi, w => (fi : ℚ) * w ^ 2 ≤ 6
  | InitKind.torchDefault, fi, w => (fi : ℚ) * w ^ 2 ≤ 1

/-- The set of bias values an initializer can produce.  Both `weight_init`
and `mini_weight_init` zero the bias; the library default draws it uniformly
from `[-1 / sqrt fanIn, 1 / sqrt fanIn]`. -/
def InitKind.validBias : InitKind → ℕ → ℚ → Prop
  | InitKind.mini, _, b => b = 0
  | InitKind.kaiming, _, b => b = 0
  | InitKind.torchDefault, fi, b => (fi : ℚ) * b ^ 2 ≤ 1

/-- Action-space descriptor: `gym.spaces.Box` (continuous, with a dimension)
or a discrete space with `n` choices (the `isinstance(ac_space, Box)` test in
the source). -/
inductive AcSpace
  | box (dim : ℕ)
  | discrete (n : ℕ)
  deriving DecidableEq, Repr

/-- Construction-time shape of the policy head: continuous action spaces get a
mean layer plus a learned log-std parameter vector, discrete ones an output
layer. -/
inductive HeadShape
  | box (mean_layer : LayerInit) (log_std_dim : ℕ)
  | discrete (output_layer : LayerInit)
  deriving DecidableEq, Repr

/-- The affine layer inside a policy head. -/
def HeadShape.layer : HeadShape → LayerInit
  | HeadShape.box l _ => l
  | HeadShape.discrete l => l

/-- Construction-time view of `PolNet`. -/
structure PolNetShape where
  fc1 : LayerInit
  fc2 : LayerInit
  head : HeadShape
  deriving DecidableEq, Repr

/-- Embeds `PolNet.__init__` (simple_net.py lines 18-37). -/
def PolNet.construct (obDim : ℕ) (acs : AcSpace) (h1 h2 : ℕ) : PolNetShape :=
  let fc1 := weight_init (nnLinear obDim h1)
  let fc2 := weight_init (nnLinear h1 h2)
  match acs with
  | AcSpace.box d => ⟨fc1, fc2, HeadShape.box (mini_weight_init (nnLinear h2 d)) d⟩
  | AcSpace.discrete n => ⟨fc1, fc2, HeadShape.discrete (mini_weight_init (nnLinear h2 n))⟩

/-- Embeds `PolNet` with the default widths `h1=200, h2=100` (line 18). -/
def PolNet.construct_default (obDim : ℕ) (acs : AcSpace) : PolNetShape :=
  PolNet.construct obDim acs 200 100

/-- Construction-time view of `MixturePolNet`. -/
structure MixturePolNetShape where
  fc1 : LayerInit
  fc2 : LayerInit
  mean_layer : LayerInit
  deriving DecidableEq, Repr

/-- Embeds `MixturePolNet.__init__` (simple_net.py lines 50-61). -/
def MixturePolNet.construct (obDim acDim mixture h1 h2 : ℕ) : MixturePolNetShape :=
  ⟨weight_init (nnLinear obDim h1),
   weight_init (nnLinear h1 h2),
   mini_weight_init (nnLinear h2 (acDim * mixture + mixture))⟩

/-- Embeds `MixturePolNet` with the default widths `h1=200, h2=100` (line 50). -/
def MixturePolNet.construct_default (obDim acDim mixture : ℕ) : MixturePolNetShape :=
  MixturePolNet.construct obDim acDim mixture 200 100

/-- Construction-time view of `VNet`. -/
structure VNetShape where
  fc1 : LayerInit
  fc2 : LayerInit
  output_layer : LayerInit
  deriving DecidableEq, Repr

/-- Embeds `VNet.__init__` (simple_net.py lines 76-81): note `self.apply(weight_init)`
re-initializes *all three* linear layers, the output head included. -/
def VNet.construct (obDim h1 h2 : ℕ) : VNetShape :=
  ⟨weight_init (nnLinear obDim h1),
   weight_init (nnLinear h1 h2),
   weight_init (nnLinear h2 1)⟩

/-- Embeds `VNet` with the default widths `h1=200, h2=100` (line 76). -/
def VNet.construct_default (obDim : ℕ) : VNetShape :=
  VNet.construct obDim 200 100

/-- Construction-time view of `QNet`. -/
structure QNetShape where
  fc1 : LayerInit
  fc2 : LayerInit
  output_layer : LayerInit
  deriving DecidableEq, Repr

/-- Embeds `QNet.__init__` (simple_net.py lines 89-96): `fc2` takes the concatenated
hidden+action vector, so its fan-in is `acDim + h1`. -/
def QNet.construct (obDim acDim h1 h2 : ℕ) : QNetShape :=
  ⟨weight_init (nnLinear obDim h1),
   weight_init (nnLinear (acDim + h1) h2),
   mini_weight_init (nnLinear h2 1)⟩

/-- Embeds `QNet` with the default widths `h1=300, h2=400` (line 89). -/
def QNet.construct_default (obDim acDim : ℕ) : QNetShape :=
  QNet.construct obDim acDim 300 400

/-- Construction-time view of `PolNetLSTM`. -/
structure PolNetLSTMShape where
  input_layer : LayerInit
  cell : LayerInit
  head : HeadShape
  deriving DecidableEq, Repr

/-- Embeds `PolNetLSTM.__init__` (simple_net.py lines 105-126): neither initializer
function is ever applied to `input_layer` or to the LSTM cell; only the head
gets `mini_weight_init`. -/
def PolNetLSTM.construct (obDim : ℕ) (acs : AcSpace) (h_size cell_size : ℕ) :
    PolNetLSTMShape :=
  let input_layer := nnLinear obDim h_size
  let cell := nnLSTMCell h_size cell_size
  match acs with
  | AcSpace.box d =>
      ⟨input_layer, cell, HeadShape.box (mini_weight_init (nnLinear cell_size d)) d⟩
  | AcSpace.discrete n =>
      ⟨input_layer, cell, HeadShape.discrete (mini_weight_init (nnLinear cell_size n))⟩

/-- Embeds `PolNetLSTM` with the default sizes `h_size=1024, cell_size=512` (line 105). -/
def PolNetLSTM.construct_default (obDim : ℕ) (acs : AcSpace) : PolNetLSTMShape :=
  PolNetLSTM.construct obDim acs 1024 512

/-- Construction-time view of `VNetLSTM`. -/
structure VNetLSTMShape where
  input_layer : LayerInit
  cell : LayerInit
  output_layer : LayerInit
  deriving DecidableEq, Repr

/-- Embeds `VNetLSTM.__init__` (simple_net.py lines 156-166): as in `PolNetLSTM`,
`input_layer` and the cell keep the library default initializer. -/
def VNetLSTM.construct (obDim h_size cell_size : ℕ) : VNetLSTMShape :=
  ⟨nnLinear obDim h_size,
   nnLSTMCell h_size cell_size,
   mini_weight_init (nnLinear cell_size 1)⟩

/-- Embeds `VNetLSTM` with the default sizes `h_size=1024, cell_size=512` (line 156). -/
def VNetLSTM.construct_default (obDim : ℕ) : VNetLSTMShape :=
  VNetLSTM.construct obDim 1024 512

/-- A head layer is "small-initialized" when every weight value its current
initializer can produce lies in `[-3e-3, 3e-3]` and every bias value it can
produce is `0`. -/
def headSmall (l : LayerInit) : Prop :=
  (∀ w : ℚ, l.current.validWeight l.fanIn w → -(3/1000) ≤ w ∧ w ≤ 3/1000) ∧
  (∀ b : ℚ, l.current.validBias l.fanIn b → b = 0)

/-- Claim C1 as stated: after construction, the output heads of all six
modules are small-initialized. -/
def C1_claim : Prop :=
  ∀ obDim d n mixture h1 h2 hsz csz : ℕ,
    headSmall (PolNet.construct obDim (AcSpace.box d) h1 h2).head.layer ∧
    headSmall (PolNet.construct obDim (AcSpace.discrete n) h1 h2).head.layer ∧
    headSmall (MixturePolNet.construct obDim d mixture h1 h2).mean_layer ∧
    headSmall (VNet.construct obDim h1 h2).output_layer ∧
    headSmall (QNet.construct obDim d h1 h2).output_layer ∧
    headSmall (PolNetLSTM.construct obDim (AcSpace.box d) hsz csz).head.layer ∧
    headSmall (PolNetLSTM.construct obDim (AcSpace.discrete n) hsz csz).head.layer ∧
    headSmall (VNetLSTM.construct obDim hsz csz).output_layer

/-- Claim C2 as stated: `weight_init` (the kaiming default initializer) is
applied exactly once to every hidden affine sub-layer, including the input
projection layers of the recurrent variants. -/
def C2_claim : Prop :=
  ∀ obDim d mixture h1 h2 hsz csz : ℕ,
    (PolNet.construct obDim (AcSpace.box d) h1 h2).fc1.inits.count InitKind.kaiming = 1 ∧
    (PolNet.construct obDim (AcSpace.box d) h1 h2).fc2.inits.count InitKind.kaiming = 1 ∧
    (MixturePolNet.construct obDim d mixture h1 h2).fc1.inits.count InitKind.kaiming = 1 ∧
    (MixturePolNet.construct obDim d mixture h1 h2).fc2.inits.count InitKind.kaiming = 1 ∧
    (VNet.construct obDim h1 h2).fc1.inits.count InitKind.kaiming = 1 ∧
    (VNet.construct obDim h1 h2).fc2.inits.count InitKind.kaiming = 1 ∧
    (QNet.construct obDim d h1 h2).fc1.inits.count InitKind.kaiming = 1 ∧
    (QNet.construct obDim d h1 h2).fc2.inits.count InitKind.kaiming = 1 ∧
    (PolNetLSTM.construct obDim (AcSpace.box d) hsz csz).input_layer.inits.count InitKind.kaiming = 1 ∧
    (VNetLSTM.construct obDim hsz csz).input_layer.inits.count InitKind.kaiming = 1

/-- Claim C6 as stated: all four feed-forward modules default to hidden
widths `h1=200, h2=100`. -/
def C6_claim : Prop :=
  ∀ obDim d mixture : ℕ,
    (PolNet.construct_default obDim (AcSpace.box d)).fc1.fanOut = 200 ∧
    (PolNet.construct_default obDim (AcSpace.box d)).fc2.fanOut = 100 ∧
    (MixturePolNet.construct_default obDim d mixture).fc1.fanOut = 200 ∧
    (MixturePolNet.construct_default obDim d mixture).fc2.fanOut = 100 ∧
    (VNet.construct_default obDim).fc1.fanOut = 200 ∧
    (VNet.construct_default obDim).fc2.fanOut = 100 ∧
    (QNet.construct_default obDim d).fc1.fanOut = 200 ∧
    (QNet.construct_default obDim d).fc2.fanOut = 100

/-! ## Value-level model: scalars, affine layers, activation primitives -/

/-- Embeds `F.relu`, pointwise. -/
def relu (x : ℚ) : ℚ := max 0 x

/-- Dot product of a weight row with an input vector. -/
def dot (w x : List ℚ) : ℚ :=
  ((w.zip x).map (fun p => p.1 * p.2)).sum

/-- An affine (`nn.Linear`) layer: one (weight-row, bias) pair per output
coordinate. -/
structure Linear where
  rows : List (List ℚ × ℚ)

/-- Applying an affine layer to an input vector. -/
def Linear.apply (l : Linear) (x : List ℚ) : List ℚ :=
  l.rows.map (fun r => dot r.1 x + r.2)

/-- Embeds `torch.softmax` along the last axis of one row, over an abstract strictly
positive exponential `e` (the numerical engine's `exp` is out of scope; every
theorem about softmax holds for any positive `e`). -/
def softmax (e : ℚ → ℚ) (z : List ℚ) : List ℚ :=
  z.map (fun zi => e zi / (z.map e).sum)

/-! ## Feed-forward modules, value level -/

/-- Value-level policy head: a continuous (`gym.spaces.Box`) action space gets
a mean layer plus the learned `log_std_param`; a discrete one an output
layer. -/
inductive PolHeadV
  | box (mean_layer : Linear) (log_std_param : List ℚ)
  | discrete (output_layer : Linear)

/-- Value-level `PolNet`. -/
structure PolNetV where
  fc1 : Linear
  fc2 : Linear
  head : PolHeadV

/-- Result of `PolNet.forward`: `(mean, log_std)` for continuous action
spaces, the probability vector `pi` for discrete ones. -/
inductive PolNetOut
  | box (mean : List ℚ) (log_std : List ℚ)
  | discrete (pi : List ℚ)

/-- Embeds `PolNet.forward` (simple_net.py lines 39-47), one batch row.  `tanhQ` and
`expQ` stand for the engine's `tanh` and `exp`. -/
def PolNetV.forward (expQ tanhQ : ℚ → ℚ) (net : PolNetV) (ob : List ℚ) : PolNetOut :=
  let h := (net.fc1.apply ob).map relu
  let h := (net.fc2.apply h).map relu
  match net.head with
  | PolHeadV.box mean_layer log_std_param =>
      PolNetOut.box ((mean_layer.apply h).map tanhQ) log_std_param
  | PolHeadV.discrete output_layer =>
      PolNetOut.discrete (softmax expQ (output_layer.apply h))

/-- Value-level `MixturePolNet`; `ac_dim` and `mixture` are stored on the
module (source: `self.ac_space`, `self.mixture`) and drive the slicing in
`forward`. -/
structure MixturePolNetV where
  fc1 : Linear
  fc2 : Linear
  mean_layer : Linear
  log_std_param : List (List ℚ)
  ac_dim : ℕ
  mixture : ℕ

/-- Embeds `view(-1, mixture, ac_dim)` on one batch row: `mixture` rows of `ac_dim`
consecutive entries. -/
def viewRows (mixture ac_dim : ℕ) (l : List ℚ) : List (List ℚ) :=
  (List.range mixture).map (fun i => (l.drop (i * ac_dim)).take ac_dim)

/-- Embeds `MixturePolNet.forward` (simple_net.py lines 63-73), one batch row:
the tanh-squashed head output is split into `ac_dim*mixture` component means
and `mixture` mixture logits, the latter softmax-normalized. -/
def MixturePolNetV.forward (expQ tanhQ : ℚ → ℚ) (net : MixturePolNetV) (ob : List ℚ) :
    List ℚ × List (List ℚ) × List (List ℚ) :=
  let h := (net.fc1.apply ob).map relu
  let h := (net.fc2.apply h).map relu
  let out := (net.mean_layer.apply h).map tanhQ
  let mean := out.take (net.ac_dim * net.mixture)
  let mean := viewRows net.mixture net.ac_dim mean
  let pi := out.drop (net.ac_dim * net.mixture)
  let pi := softmax expQ pi
  (pi, mean, net.log_std_param)

/-- Value-level `VNet`. -/
structure VNetV where
  fc1 : Linear
  fc2 : Linear
  output_layer : Linear

/-- Embeds `VNet.forward` (simple_net.py lines 83-86), one batch row. -/
def VNetV.forward (net : VNetV) (ob : List ℚ) : List ℚ :=
  let h := (net.fc1.apply ob).map relu
  let h := (net.fc2.apply h).map relu
  net.output_layer.apply h

/-- Value-level `QNet`. -/
structure QNetV where
  fc1 : Linear
  fc2 : Linear
  output_layer : Linear

/-- Embeds `QNet.forward` (simple_net.py lines 98-102), one batch row: the action
vector is concatenated (`torch.cat`, feature axis) to the first hidden
representation, then passes through `fc2`, ReLU and the scalar head. -/
def QNetV.forward (net : QNetV) (ob ac : List ℚ) : List ℚ :=
  let h := (net.fc1.apply ob).map relu
  let h := h ++ ac
  let h := (net.fc2.apply h).map relu
  net.output_layer.apply h

/-- The spec's description of `QNet.forward`, written as one composition:
the scalar output head applied to `relu (fc2 (concat (relu (fc1 ob)) ac))`. -/
def qnetSpecForward (net : QNetV) (ob ac : List ℚ) : List ℚ :=
  net.output_layer.apply ((net.fc2.apply (((net.fc1.apply ob).map relu) ++ ac)).map relu)

/-! ## Recurrent modules, value level -/

/-- The hidden-state pair `(h, c)` of an LSTM cell, one batch row. -/
abbrev HiddenPair := List ℚ × List ℚ

/-- Embeds `hs = (hs[0] * (1 - mask), hs[1] * (1 - mask))`: the per-timestep reset
applied to the carried hidden state right before each cell step. -/
def maskHs (m : ℚ) (hs : HiddenPair) : HiddenPair :=
  (hs.1.map (fun a => a * (1 - m)), hs.2.map (fun a => a * (1 - m)))

/-- The recurrent loop shared by `PolNetLSTM.forward` and `VNetLSTM.forward`
(simple_net.py lines 139-143 and 179-183): for each `(x, mask)` pair (the
`zip` truncates to the shorter list), scale the carried state by `1 - mask`,
step the cell, and collect `hs[0]`. -/
def lstmScan (cell : List ℚ → HiddenPair → HiddenPair) :
    List (List ℚ) → List ℚ → HiddenPair → List (List ℚ) × HiddenPair
  | [], _, hs => ([], hs)
  | _ :: _, [], hs => ([], hs)
  | x :: xs, m :: ms, hs =>
      let hs1 := cell x (maskHs m hs)
      let r := lstmScan cell xs ms hs1
      (hs1.1 :: r.1, r.2)

/-- Embeds `hs[i].reshape(batch_size, cell_size)`: succeeds exactly when the tensor
already holds `cell_size` entries per row. -/
def reshapeTo (n : ℕ) (v : List ℚ) : Option (List ℚ) :=
  if v.length = n then some v else none

/-- The external `nn.LSTMCell` always emits hidden and cell states of width
`hidden_size`, whatever state it was fed. -/
def cellKeepsSize (cell : List ℚ → HiddenPair → HiddenPair) (n : ℕ) : Prop :=
  ∀ x hs, (cell x hs).1.length = n ∧ (cell x hs).2.length = n

/-- Value-level `PolNetLSTM`: the input projection, the external LSTM cell as
a step function, and the action head. -/
structure PolNetLSTMV where
  cell_size : ℕ
  input_layer : Linear
  cell : List ℚ → HiddenPair → HiddenPair
  head : PolHeadV

/-- Embeds `PolNetLSTM.init_hs` (simple_net.py lines 128-130): a zero-filled pair of
width `cell_size`. -/
def PolNetLSTMV.init_hs (net : PolNetLSTMV) : HiddenPair :=
  (List.replicate net.cell_size 0, List.replicate net.cell_size 0)

/-- Per-timestep outputs of `PolNetLSTM.forward`: means plus the expanded
log-std for continuous action spaces, per-timestep probability vectors for
discrete ones. -/
inductive PolLSTMOut
  | box (means : List (List ℚ)) (log_std : List (List ℚ))
  | discrete (pi : List (List ℚ))

/-- The head applied to the collected hidden outputs (simple_net.py lines
146-152); `log_std_param.expand_as(means)` repeats the parameter once per
timestep. -/
def PolNetLSTMV.headOut (expQ tanhQ : ℚ → ℚ) (net : PolNetLSTMV)
    (hiddens : List (List ℚ)) : PolLSTMOut :=
  match net.head with
  | PolHeadV.box mean_layer log_std_param =>
      PolLSTMOut.box (hiddens.map (fun h => (mean_layer.apply h).map tanhQ))
        (hiddens.map (fun _ => log_std_param))
  | PolHeadV.discrete output_layer =>
      PolLSTMOut.discrete (hiddens.map (fun h => softmax expQ (output_layer.apply h)))

/-- Embeds `PolNetLSTM.forward` (simple_net.py lines 132-152), one batch row per
timestep: reshape the incoming hidden pair to `cell_size` (an engine error —
`none` — if the size does not match), project and ReLU the inputs, run the
masked recurrent loop, then apply the head; returns the outputs and the final
hidden pair. -/
def PolNetLSTMV.forward (expQ tanhQ : ℚ → ℚ) (net : PolNetLSTMV)
    (xs : List (List ℚ)) (hs : HiddenPair) (h_masks : List ℚ) :
    Option (PolLSTMOut × HiddenPair) :=
  match reshapeTo net.cell_size hs.1, reshapeTo net.cell_size hs.2 with
  | some h0, some c0 =>
      let xs2 := xs.map (fun x => (net.input_layer.apply x).map relu)
      let r := lstmScan net.cell xs2 h_masks (h0, c0)
      some (net.headOut expQ tanhQ r.1, r.2)
  | _, _ => none

/-- Value-level `VNetLSTM`. -/
structure VNetLSTMV where
  cell_size : ℕ
  input_layer : Linear
  cell : List ℚ → HiddenPair → HiddenPair
  output_layer : Linear

/-- Embeds `VNetLSTM.init_hs` (simple_net.py lines 168-170). -/
def VNetLSTMV.init_hs (net : VNetLSTMV) : HiddenPair :=
  (List.replicate net.cell_size 0, List.replicate net.cell_size 0)

/-- Embeds `VNetLSTM.forward` (simple_net.py lines 172-187): same loop, with the
scalar output head applied to every collected hidden output. -/
def VNetLSTMV.forward (net : VNetLSTMV) (xs : List (List ℚ)) (hs : HiddenPair)
    (h_masks : List ℚ) : Option (List (List ℚ) × HiddenPair) :=
  match reshapeTo net.cell_size hs.1, reshapeTo net.cell_size hs.2 with
  | some h0, some c0 =>
      let xs2 := xs.map (fun x => (net.input_layer.apply x).map relu)
      let r := lstmScan net.cell xs2 h_masks (h0, c0)
      some (r.1.map (fun h => net.output_layer.apply h), r.2)
  | _, _ => none

/-! ## Spec-side definitions for the refinement claims -/

/-- Dropping the first `t` timesteps from a `PolNetLSTM` output. -/
def PolLSTMOut.dropT (t : ℕ) : PolLSTMOut → PolLSTMOut
  | PolLSTMOut.box means log_std => PolLSTMOut.box (means.drop t) (log_std.drop t)
  | PolLSTMOut.discrete pi => PolLSTMOut.discrete (pi.drop t)

/-- Concatenating two `PolNetLSTM` outputs along the time axis (heads of the
same kind; mismatched kinds cannot arise from one module). -/
def PolLSTMOut.appendT : PolLSTMOut → PolLSTMOut → PolLSTMOut
  | PolLSTMOut.box m1 l1, PolLSTMOut.box m2 l2 => PolLSTMOut.box (m1 ++ m2) (l1 ++ l2)
  | PolLSTMOut.discrete p1, PolLSTMOut.discrete p2 => PolLSTMOut.discrete (p1 ++ p2)
  | o, _ => o

/-- The empty (zero-timestep) output of a `PolNetLSTM`, by head kind. -/
def PolNetLSTMV.emptyOut (net : PolNetLSTMV) : PolLSTMOut :=
  match net.head with
  | PolHeadV.box _ _ => PolLSTMOut.box [] []
  | PolHeadV.discrete _ => PolLSTMOut.discrete []

/-- Modelled from the spec (claim C4): `T` sequential single-step `forward`
calls on the individual timesteps, each with a zero mask, threading the
hidden pair manually from each call to the next and concatenating the
per-timestep outputs. -/
def PolNetLSTMV.chainSteps (expQ tanhQ : ℚ → ℚ) (net : PolNetLSTMV) :
    List (List ℚ) → HiddenPair → Option (PolLSTMOut × HiddenPair)
  | [], hs => some (net.emptyOut, hs)
  | x :: xs, hs =>
      match net.forward expQ tanhQ [x] hs [0] with
      | none => none
      | some (o1, hs1) =>
          match PolNetLSTMV.chainSteps expQ tanhQ net xs hs1 with
          | none => none
          | some (orest, hsf) => some (o1.appendT orest, hsf)

/-- Modelled from the spec (claim C4): the same sequential single-step
composition for `VNetLSTM`. -/
def VNetLSTMV.chainSteps (net : VNetLSTMV) :
    List (List ℚ) → HiddenPair → Option (List (List ℚ) × HiddenPair)
  | [], hs => some ([], hs)
  | x :: xs, hs =>
      match net.forward [x] hs [0] with
      | none => none
      | some (o1, hs1) =>
          match VNetLSTMV.chainSteps net xs hs1 with
          | none => none
          | some (orest, hsf) => some (o1 ++ orest, hsf)

/-! ## Helper lemmas -/

lemma map_mul_one_sub_zero (l : List ℚ) : l.map (fun a => a * (1 - 0)) = l := by
  simp

lemma maskHs_zero (hs : HiddenPair) : maskHs 0 hs = hs := by
  cases hs with
  | mk h c => simp [maskHs]

lemma map_mul_one_sub_one (l : List ℚ) :
    l.map (fun a => a * (1 - 1)) = List.replicate l.length 0 := by
  induction l with
  | nil => rfl
  | cons a l ih => simp [ih, List.replicate_succ]

lemma maskHs_one (hs : HiddenPair) :
    maskHs 1 hs = (List.replicate hs.1.length 0, List.replicate hs.2.length 0) := by
  cases hs with
  | mk h c => simp [maskHs, map_mul_one_sub_one]

lemma softmax_prob (e : ℚ → ℚ) (he : ∀ x, 0 < e x) (z : List ℚ) (hz : z ≠ []) :
    (∀ p ∈ softmax e z, 0 ≤ p) ∧ (softmax e z).sum = 1 := by
  have hpos : 0 < (z.map e).sum := by
    apply List.sum_pos
    · intro a ha
      obtain ⟨x, _, rfl⟩ := List.mem_map.mp ha
      exact he x
    · simpa using hz
  constructor
  · intro p hp
    obtain ⟨zi, _, rfl⟩ := List.mem_map.mp hp
    exact div_nonneg (le_of_lt (he zi)) (le_of_lt hpos)
  · have : softmax e z = z.map (fun zi => e zi * ((z.map e).sum)⁻¹) := by
      unfold softmax
      exact List.map_congr_left (fun zi _ => div_eq_mul_inv _ _)
    rw [this, List.sum_map_mul_right]
    exact mul_inv_cancel₀ hpos.ne'

/-! ## Claims C1, C2, C5, C6, C9 -/

/-- Claim C1, corrected: after construction the output heads of `PolNet`
(both action-space kinds), `MixturePolNet`, `QNet`, `PolNetLSTM` (both kinds)
and `VNetLSTM` carry `mini_weight_init`, so any weight it can draw lies in
`[-3e-3, 3e-3]` and any bias it can produce is `0`; but `VNet`'s output head
was re-initialized by `weight_init` (kaiming), not by the small initializer. -/
theorem C1_small_init_heads (obDim d n mixture h1 h2 hsz csz fi : ℕ) (w b : ℚ)
    (hw : InitKind.validWeight InitKind.mini fi w)
    (hb : InitKind.validBias InitKind.mini fi b) :
    (PolNet.construct obDim (AcSpace.box d) h1 h2).head.layer.current = InitKind.mini ∧
    (PolNet.construct obDim (AcSpace.discrete n) h1 h2).head.layer.current = InitKind.mini ∧
    (MixturePolNet.construct obDim d mixture h1 h2).mean_layer.current = InitKind.mini ∧
    (QNet.construct obDim d h1 h2).output_layer.current = InitKind.mini ∧
    (PolNetLSTM.construct obDim (AcSpace.box d) hsz csz).head.layer.current = InitKind.mini ∧
    (PolNetLSTM.construct obDim (AcSpace.discrete n) hsz csz).head.layer.current = InitKind.mini ∧
    (VNetLSTM.construct obDim hsz csz).output_layer.current = InitKind.mini ∧
    (VNet.construct obDim h1 h2).output_layer.current = InitKind.kaiming ∧
    (-(3/1000) ≤ w ∧ w ≤ 3/1000) ∧ b = 0 :=
  ⟨rfl, rfl, rfl, rfl, rfl, rfl, rfl, rfl, hw, hb⟩

/-- Witness for `C1_small_init_heads` at concrete sizes and a concrete
mini-initializer draw. -/
theorem C1_small_init_heads_witness :
    InitKind.validWeight InitKind.mini 100 (1/1000) ∧
    InitKind.validBias InitKind.mini 100 0 ∧
    ((PolNet.construct 3 (AcSpace.box 2) 200 100).head.layer.current = InitKind.mini ∧
     (PolNet.construct 3 (AcSpace.discrete 2) 200 100).head.layer.current = InitKind.mini ∧
     (MixturePolNet.construct 3 2 2 200 100).mean_layer.current = InitKind.mini ∧
     (QNet.construct 3 2 200 100).output_layer.current = InitKind.mini ∧
     (PolNetLSTM.construct 3 (AcSpace.box 2) 1024 512).head.layer.current = InitKind.mini ∧
     (PolNetLSTM.construct 3 (AcSpace.discrete 2) 1024 512).head.layer.current = InitKind.mini ∧
     (VNetLSTM.construct 3 1024 512).output_layer.current = InitKind.mini ∧
     (VNet.construct 3 200 100).output_layer.current = InitKind.kaiming ∧
     (-(3/1000) ≤ (1/1000 : ℚ) ∧ (1/1000 : ℚ) ≤ 3/1000) ∧ (0 : ℚ) = 0) :=
  ⟨⟨by norm_num, by norm_num⟩, rfl,
   C1_small_init_heads 3 2 2 2 200 100 1024 512 100 (1/1000) 0
     ⟨by norm_num, by norm_num⟩ rfl⟩

/-- Counterexample to claim C1 as stated: `VNet.__init__` runs
`self.apply(weight_init)`, so its value output head is kaiming-initialized;
with fan-in 100 the draw `w = 1/10` is a possible kaiming weight, far outside
`[-3e-3, 3e-3]`. -/
theorem C1_counterexample : ¬ C1_claim := by
  intro h
  obtain ⟨hw, -⟩ := (h 3 2 2 2 200 100 1024 512).2.2.2.1
  have hv : InitKind.validWeight (VNet.construct 3 200 100).output_layer.current
      (VNet.construct 3 200 100).output_layer.fanIn (1/10) := by
    show ((100 : ℕ) : ℚ) * (1/10) ^ 2 ≤ 6
    norm_num
  have := (hw (1/10) hv).2
  norm_num at this

/-- Claim C2, corrected: `weight_init` is applied exactly once to each hidden
affine layer of the feed-forward modules, but it is never applied to the
input projection layers of `PolNetLSTM` and `VNetLSTM`: those keep exactly
the library's creation-time default initialization. -/
theorem C2_hidden_layer_default_init (obDim d n mixture h1 h2 hsz csz : ℕ) :
    (PolNet.construct obDim (AcSpace.box d) h1 h2).fc1.inits.count InitKind.kaiming = 1 ∧
    (PolNet.construct obDim (AcSpace.box d) h1 h2).fc2.inits.count InitKind.kaiming = 1 ∧
    (MixturePolNet.construct obDim d mixture h1 h2).fc1.inits.count InitKind.kaiming = 1 ∧
    (MixturePolNet.construct obDim d mixture h1 h2).fc2.inits.count InitKind.kaiming = 1 ∧
    (VNet.construct obDim h1 h2).fc1.inits.count InitKind.kaiming = 1 ∧
    (VNet.construct obDim h1 h2).fc2.inits.count InitKind.kaiming = 1 ∧
    (QNet.construct obDim d h1 h2).fc1.inits.count InitKind.kaiming = 1 ∧
    (QNet.construct obDim d h1 h2).fc2.inits.count InitKind.kaiming = 1 ∧
    (PolNetLSTM.construct obDim (AcSpace.box d) hsz csz).input_layer.inits
        = [InitKind.torchDefault] ∧
    (PolNetLSTM.construct obDim (AcSpace.discrete n) hsz csz).input_layer.inits
        = [InitKind.torchDefault] ∧
    (VNetLSTM.construct obDim hsz csz).input_layer.inits = [InitKind.torchDefault] :=
  ⟨rfl, rfl, rfl, rfl, rfl, rfl, rfl, rfl, rfl, rfl, rfl⟩

/-- Counterexample to claim C2 as stated: `PolNetLSTM.__init__` never applies
`weight_init` to `input_layer`, so its kaiming count is `0`, not `1`. -/
theorem C2_counterexample : ¬ C2_claim := by
  intro h
  have := (h 3 2 2 200 100 1024 512).2.2.2.2.2.2.2.2.1
  exact absurd this (by decide)

/-- Claim C5: `QNet.forward ob ac` is exactly the scalar output head applied
to `relu (fc2 (concat (relu (fc1 ob)) ac))` — the action vector joins the
hidden representation, not the raw observation. -/
theorem C5_qnet_concat_order (net : QNetV) (ob ac : List ℚ) :
    net.forward ob ac = qnetSpecForward net ob ac := rfl

/-- Claim C6, corrected: `PolNet`, `MixturePolNet` and `VNet` default to
hidden widths `h1=200, h2=100`, but `QNet` defaults to `h1=300, h2=400`
(its `fc2` fan-in is the action dimension plus 300). -/
theorem C6_default_widths (obDim d n mixture : ℕ) :
    (PolNet.construct_default obDim (AcSpace.box d)).fc1.fanOut = 200 ∧
    (PolNet.construct_default obDim (AcSpace.box d)).fc2.fanOut = 100 ∧
    (PolNet.construct_default obDim (AcSpace.discrete n)).fc1.fanOut = 200 ∧
    (PolNet.construct_default obDim (AcSpace.discrete n)).fc2.fanOut = 100 ∧
    (MixturePolNet.construct_default obDim d mixture).fc1.fanOut = 200 ∧
    (MixturePolNet.construct_default obDim d mixture).fc2.fanOut = 100 ∧
    (VNet.construct_default obDim).fc1.fanOut = 200 ∧
    (VNet.construct_default obDim).fc2.fanOut = 100 ∧
    (QNet.construct_default obDim d).fc1.fanOut = 300 ∧
    (QNet.construct_default obDim d).fc2.fanOut = 400 ∧
    (QNet.construct_default obDim d).fc2.fanIn = d + 300 :=
  ⟨rfl, rfl, rfl, rfl, rfl, rfl, rfl, rfl, rfl, rfl, rfl⟩

/-- Counterexample to claim C6 as stated: the default `QNet` has first hidden
width 300, not 200. -/
theorem C6_counterexample : ¬ C6_claim := by
  intro h
  exact absurd ((h 3 2 2).2.2.2.2.2.2.1) (by decide)

/-- Claim C9: for a continuous-action `PolNet`, the log-std component of the
forward output is the learned parameter itself, identical for any two
observations. -/
theorem C9_log_std_observation_independent (expQ tanhQ : ℚ → ℚ)
    (fc1 fc2 mean_layer : Linear) (log_std_param : List ℚ) (ob1 ob2 : List ℚ) :
    ∃ m1 m2 : List ℚ,
      PolNetV.forward expQ tanhQ ⟨fc1, fc2, PolHeadV.box mean_layer log_std_param⟩ ob1
          = PolNetOut.box m1 log_std_param ∧
      PolNetV.forward expQ tanhQ ⟨fc1, fc2, PolHeadV.box mean_layer log_std_param⟩ ob2
          = PolNetOut.box m2 log_std_param :=
  ⟨_, _, rfl, rfl⟩

/-! ## Claims C7 and C8 -/

/-- Claim C7: a discrete-action `PolNet` outputs a valid probability vector:
non-negative entries summing to 1 (for any strictly positive exponential and
a non-degenerate output layer). -/
theorem C7_discrete_probability_vector (expQ tanhQ : ℚ → ℚ)
    (he : ∀ x : ℚ, 0 < expQ x) (fc1 fc2 output_layer : Linear) (ob : List ℚ)
    (hrows : output_layer.rows ≠ []) :
    ∃ pi : List ℚ,
      PolNetV.forward expQ tanhQ ⟨fc1, fc2, PolHeadV.discrete output_layer⟩ ob
          = PolNetOut.discrete pi ∧ (∀ p ∈ pi, 0 ≤ p) ∧ pi.sum = 1 := by
  refine ⟨_, rfl, ?_⟩
  apply softmax_prob expQ he
  simp only [Linear.apply, ne_eq, List.map_eq_nil_iff]
  exact hrows

/-- Witness for `C7_discrete_probability_vector` on a one-action layer with
the constant exponential. -/
theorem C7_discrete_probability_vector_witness :
    (∀ x : ℚ, 0 < (fun _ : ℚ => (1 : ℚ)) x) ∧
    (Linear.mk [(([] : List ℚ), (0 : ℚ))]).rows ≠ [] ∧
    (∃ pi : List ℚ,
      PolNetV.forward (fun _ => 1) (fun x => x)
          ⟨Linear.mk [], Linear.mk [], PolHeadV.discrete (Linear.mk [([], 0)])⟩ [1]
          = PolNetOut.discrete pi ∧ (∀ p ∈ pi, 0 ≤ p) ∧ pi.sum = 1) :=
  ⟨fun _ => one_pos, List.cons_ne_nil _ _,
   C7_discrete_probability_vector (fun _ => 1) (fun x => x) (fun _ => one_pos)
     (Linear.mk []) (Linear.mk []) (Linear.mk [([], 0)]) [1] (List.cons_ne_nil _ _)⟩

/-- Claim C8: the mixture-weight component of `MixturePolNet.forward` is a
valid probability vector over the mixture axis: non-negative entries summing
to 1 (for any strictly positive exponential, a head sized
`ac_dim*mixture + mixture`, and at least one mixture component). -/
theorem C8_mixture_weights_probability (expQ tanhQ : ℚ → ℚ)
    (he : ∀ x : ℚ, 0 < expQ x) (net : MixturePolNetV) (ob : List ℚ)
    (hlen : net.mean_layer.rows.length = net.ac_dim * net.mixture + net.mixture)
    (hmix : 0 < net.mixture) :
    (∀ p ∈ (net.forward expQ tanhQ ob).1, 0 ≤ p) ∧
    (net.forward expQ tanhQ ob).1.sum = 1 := by
  apply softmax_prob expQ he
  simp only [ne_eq, List.drop_eq_nil_iff, List.length_map, Linear.apply, hlen]
  omega

/-- Witness for `C8_mixture_weights_probability` on a single-component
mixture over a zero-dimensional action space. -/
theorem C8_mixture_weights_probability_witness :
    (∀ x : ℚ, 0 < (fun _ : ℚ => (1 : ℚ)) x) ∧
    (MixturePolNetV.mk (Linear.mk []) (Linear.mk []) (Linear.mk [([], 0)]) [] 0 1).mean_layer.rows.length
        = (MixturePolNetV.mk (Linear.mk []) (Linear.mk []) (Linear.mk [([], 0)]) [] 0 1).ac_dim * 1 + 1 ∧
    0 < (MixturePolNetV.mk (Linear.mk []) (Linear.mk []) (Linear.mk [([], 0)]) [] 0 1).mixture ∧
    ((∀ p ∈ ((MixturePolNetV.mk (Linear.mk []) (Linear.mk []) (Linear.mk [([], 0)]) [] 0 1).forward
          (fun _ => 1) (fun x => x) [1]).1, 0 ≤ p) ∧
      ((MixturePolNetV.mk (Linear.mk []) (Linear.mk []) (Linear.mk [([], 0)]) [] 0 1).forward
          (fun _ => 1) (fun x => x) [1]).1.sum = 1) :=
  ⟨fun _ => one_pos, rfl, Nat.one_pos,
   C8_mixture_weights_probability (fun _ => 1) (fun x => x) (fun _ => one_pos)
     (MixturePolNetV.mk (Linear.mk []) (Linear.mk []) (Linear.mk [([], 0)]) [] 0 1) [1]
     rfl Nat.one_pos⟩

/-! ## Recurrent-loop lemmas -/

lemma lstmScan_reset (cell : List ℚ → HiddenPair → HiddenPair) (n : ℕ)
    (hcell : cellKeepsSize cell n) :
    ∀ (t : ℕ) (xs : List (List ℚ)) (ms : List ℚ) (hs : HiddenPair),
      hs.1.length = n → hs.2.length = n → ms[t]? = some 1 → t < xs.length →
      (lstmScan cell xs ms hs).1.drop t
          = (lstmScan cell (xs.drop t) (ms.drop t)
              (List.replicate n 0, List.replicate n 0)).1
        ∧ (lstmScan cell xs ms hs).2
          = (lstmScan cell (xs.drop t) (ms.drop t)
              (List.replicate n 0, List.replicate n 0)).2 := by
  intro t
  induction t with
  | zero =>
    intro xs ms hs hl1 hl2 hm ht
    match xs, ms with
    | [], _ => simp at ht
    | x :: xs, [] => simp at hm
    | x :: xs, m :: ms =>
      have hm1 : m = 1 := by simpa using hm
      subst hm1
      have e1 : maskHs 1 hs = (List.replicate n 0, List.replicate n 0) := by
        rw [maskHs_one, hl1, hl2]
      have e2 : maskHs 1 ((List.replicate n (0:ℚ)), (List.replicate n (0:ℚ)))
          = (List.replicate n 0, List.replicate n 0) := by
        rw [maskHs_one]
        simp
      constructor
      · show (lstmScan cell (x :: xs) (1 :: ms) hs).1.drop 0 = _
        simp only [List.drop_zero, lstmScan, e1, e2]
      · show (lstmScan cell (x :: xs) (1 :: ms) hs).2 = _
        simp only [List.drop_zero, lstmScan, e1, e2]
  | succ t ih =>
    intro xs ms hs hl1 hl2 hm ht
    match xs, ms with
    | [], _ => simp at ht
    | x :: xs, [] => simp at hm
    | x :: xs, m :: ms =>
      have step := hcell x (maskHs m hs)
      have rec := ih xs ms (cell x (maskHs m hs)) step.1 step.2
        (by simpa using hm) (by simpa using ht)
      constructor
      · show ((cell x (maskHs m hs)).1 ::
            (lstmScan cell xs ms (cell x (maskHs m hs))).1).drop (t+1) = _
        simpa using rec.1
      · show (lstmScan cell xs ms (cell x (maskHs m hs))).2 = _
        simpa using rec.2

lemma headOut_dropT (expQ tanhQ : ℚ → ℚ) (net : PolNetLSTMV)
    (hiddens : List (List ℚ)) (t : ℕ) :
    (net.headOut expQ tanhQ hiddens).dropT t = net.headOut expQ tanhQ (hiddens.drop t) := by
  cases h : net.head with
  | box mean_layer log_std_param =>
      simp [PolNetLSTMV.headOut, PolLSTMOut.dropT, h, List.map_drop]
  | discrete output_layer =>
      simp [PolNetLSTMV.headOut, PolLSTMOut.dropT, h, List.map_drop]

lemma polForward_reset (expQ tanhQ : ℚ → ℚ) (net : PolNetLSTMV)
    (hcell : cellKeepsSize net.cell net.cell_size)
    (xs : List (List ℚ)) (ms : List ℚ) (hs : HiddenPair) (t : ℕ)
    (hl1 : hs.1.length = net.cell_size) (hl2 : hs.2.length = net.cell_size)
    (hm : ms[t]? = some 1) (ht : t < xs.length) :
    (net.forward expQ tanhQ xs hs ms).map (fun r => (r.1.dropT t, r.2))
      = net.forward expQ tanhQ (xs.drop t) net.init_hs (ms.drop t) := by
  have hsc := lstmScan_reset net.cell net.cell_size hcell t
    (xs.map (fun x => (net.input_layer.apply x).map relu)) ms (hs.1, hs.2)
    hl1 hl2 hm (by simpa using ht)
  simp only [PolNetLSTMV.forward, reshapeTo, hl1, hl2, PolNetLSTMV.init_hs,
    List.length_replicate, if_pos, Option.map_some']
  rw [← List.map_drop] at hsc
  rw [headOut_dropT, hsc.1, hsc.2]

lemma vForward_reset (net : VNetLSTMV)
    (hcell : cellKeepsSize net.cell net.cell_size)
    (xs : List (List ℚ)) (ms : List ℚ) (hs : HiddenPair) (t : ℕ)
    (hl1 : hs.1.length = net.cell_size) (hl2 : hs.2.length = net.cell_size)
    (hm : ms[t]? = some 1) (ht : t < xs.length) :
    (net.forward xs hs ms).map (fun r => (r.1.drop t, r.2))
      = net.forward (xs.drop t) net.init_hs (ms.drop t) := by
  have hsc := lstmScan_reset net.cell net.cell_size hcell t
    (xs.map (fun x => (net.input_layer.apply x).map relu)) ms (hs.1, hs.2)
    hl1 hl2 hm (by simpa using ht)
  simp only [VNetLSTMV.forward, reshapeTo, hl1, hl2, VNetLSTMV.init_hs,
    List.length_replicate, if_pos, Option.map_some']
  rw [← List.map_drop] at hsc
  rw [← List.map_drop, hsc.1, hsc.2]

/-! ## Claim C3 -/

/-- Claim C3: for both recurrent modules, a reset mask of all 1s at timestep
`t` makes the outputs from `t` onward (and the final hidden pair) identical
to a fresh run that starts at timestep `t` from the zero hidden pair produced
by `init_hs`. -/
theorem C3_reset_equals_fresh_init (expQ tanhQ : ℚ → ℚ)
    (pnet : PolNetLSTMV) (hpc : cellKeepsSize pnet.cell pnet.cell_size)
    (xs1 : List (List ℚ)) (ms1 : List ℚ) (hs1 : HiddenPair) (t1 : ℕ)
    (hp1 : hs1.1.length = pnet.cell_size) (hp2 : hs1.2.length = pnet.cell_size)
    (hpm : ms1[t1]? = some 1) (hpt : t1 < xs1.length)
    (vnet : VNetLSTMV) (hvc : cellKeepsSize vnet.cell vnet.cell_size)
    (xs2 : List (List ℚ)) (ms2 : List ℚ) (hs2 : HiddenPair) (t2 : ℕ)
    (hv1 : hs2.1.length = vnet.cell_size) (hv2 : hs2.2.length = vnet.cell_size)
    (hvm : ms2[t2]? = some 1) (hvt : t2 < xs2.length) :
    (pnet.forward expQ tanhQ xs1 hs1 ms1).map (fun r => (r.1.dropT t1, r.2))
        = pnet.forward expQ tanhQ (xs1.drop t1) pnet.init_hs (ms1.drop t1)
    ∧ (vnet.forward xs2 hs2 ms2).map (fun r => (r.1.drop t2, r.2))
        = vnet.forward (xs2.drop t2) vnet.init_hs (ms2.drop t2) :=
  ⟨polForward_reset expQ tanhQ pnet hpc xs1 ms1 hs1 t1 hp1 hp2 hpm hpt,
   vForward_reset vnet hvc xs2 ms2 hs2 t2 hv1 hv2 hvm hvt⟩

/-- A one-cell LSTM step function used to witness the recurrent claims: its
output widths are constantly 1. -/
def tinyCell : List ℚ → HiddenPair → HiddenPair := fun _ _ => ([0], [0])

/-- A tiny concrete `PolNetLSTM` (continuous head) for witnessing. -/
def tinyPolLSTM : PolNetLSTMV :=
  ⟨1, Linear.mk [], tinyCell, PolHeadV.box (Linear.mk []) []⟩

/-- A tiny concrete `VNetLSTM` for witnessing. -/
def tinyVLSTM : VNetLSTMV :=
  ⟨1, Linear.mk [], tinyCell, Linear.mk []⟩

/-- Witness for `C3_reset_equals_fresh_init` on the tiny concrete modules,
mask `[1]`, timestep `0`. -/
theorem C3_reset_equals_fresh_init_witness :
    cellKeepsSize tinyPolLSTM.cell tinyPolLSTM.cell_size ∧
    ([(0:ℚ)], [(0:ℚ)]).1.length = tinyPolLSTM.cell_size ∧
    ([(0:ℚ)], [(0:ℚ)]).2.length = tinyPolLSTM.cell_size ∧
    ([(1:ℚ)])[0]? = some 1 ∧ 0 < [[(5:ℚ)]].length ∧
    cellKeepsSize tinyVLSTM.cell tinyVLSTM.cell_size ∧
    ((tinyPolLSTM.forward (fun x => x) (fun x => x) [[(5:ℚ)]] ([0], [0]) [1]).map
          (fun r => (r.1.dropT 0, r.2))
        = tinyPolLSTM.forward (fun x => x) (fun x => x) ([[(5:ℚ)]].drop 0)
            tinyPolLSTM.init_hs ([(1:ℚ)].drop 0)
      ∧ (tinyVLSTM.forward [[(5:ℚ)]] ([0], [0]) [1]).map (fun r => (r.1.drop 0, r.2))
          = tinyVLSTM.forward ([[(5:ℚ)]].drop 0) tinyVLSTM.init_hs ([(1:ℚ)].drop 0)) :=
  ⟨fun _ _ => ⟨rfl, rfl⟩, rfl, rfl, rfl, Nat.one_pos, fun _ _ => ⟨rfl, rfl⟩,
   C3_reset_equals_fresh_init (fun x => x) (fun x => x)
     tinyPolLSTM (fun _ _ => ⟨rfl, rfl⟩) [[(5:ℚ)]] [1] ([0], [0]) 0 rfl rfl rfl Nat.one_pos
     tinyVLSTM (fun _ _ => ⟨rfl, rfl⟩) [[(5:ℚ)]] [1] ([0], [0]) 0 rfl rfl rfl Nat.one_pos⟩

lemma polForward_eq (expQ tanhQ : ℚ → ℚ) (net : PolNetLSTMV)
    (xs : List (List ℚ)) (ms : List ℚ) (hs : HiddenPair)
    (h1 : hs.1.length = net.cell_size) (h2 : hs.2.length = net.cell_size) :
    net.forward expQ tanhQ xs hs ms
      = some (net.headOut expQ tanhQ
          (lstmScan net.cell (xs.map (fun x => (net.input_layer.apply x).map relu)) ms hs).1,
        (lstmScan net.cell (xs.map (fun x => (net.input_layer.apply x).map relu)) ms hs).2) := by
  obtain ⟨a, b⟩ := hs
  simp only [PolNetLSTMV.forward, reshapeTo]
  rw [if_pos h1, if_pos h2]

lemma vForward_eq (net : VNetLSTMV)
    (xs : List (List ℚ)) (ms : List ℚ) (hs : HiddenPair)
    (h1 : hs.1.length = net.cell_size) (h2 : hs.2.length = net.cell_size) :
    net.forward xs hs ms
      = some ((lstmScan net.cell (xs.map (fun x => (net.input_layer.apply x).map relu)) ms hs).1.map
          (fun h => net.output_layer.apply h),
        (lstmScan net.cell (xs.map (fun x => (net.input_layer.apply x).map relu)) ms hs).2) := by
  obtain ⟨a, b⟩ := hs
  simp only [VNetLSTMV.forward, reshapeTo]
  rw [if_pos h1, if_pos h2]

lemma lstmScan_cons_zero (cell : List ℚ → HiddenPair → HiddenPair)
    (x : List ℚ) (xs : List (List ℚ)) (ms : List ℚ) (hs : HiddenPair) :
    lstmScan cell (x :: xs) (0 :: ms) hs
      = ((cell x hs).1 :: (lstmScan cell xs ms (cell x hs)).1,
         (lstmScan cell xs ms (cell x hs)).2) := by
  simp [lstmScan, maskHs_zero]

lemma lstmScan_single_zero (cell : List ℚ → HiddenPair → HiddenPair)
    (x : List ℚ) (hs : HiddenPair) :
    lstmScan cell [x] [0] hs = ([(cell x hs).1], cell x hs) := by
  simp [lstmScan, maskHs_zero]

lemma headOut_nil (expQ tanhQ : ℚ → ℚ) (net : PolNetLSTMV) :
    net.headOut expQ tanhQ [] = net.emptyOut := by
  cases h : net.head with
  | box mean_layer log_std_param => simp [PolNetLSTMV.headOut, PolNetLSTMV.emptyOut, h]
  | discrete output_layer => simp [PolNetLSTMV.headOut, PolNetLSTMV.emptyOut, h]

lemma headOut_append (expQ tanhQ : ℚ → ℚ) (net : PolNetLSTMV)
    (l1 l2 : List (List ℚ)) :
    (net.headOut expQ tanhQ l1).appendT (net.headOut expQ tanhQ l2)
      = net.headOut expQ tanhQ (l1 ++ l2) := by
  cases h : net.head with
  | box mean_layer log_std_param =>
      simp [PolNetLSTMV.headOut, PolLSTMOut.appendT, h]
  | discrete output_layer =>
      simp [PolNetLSTMV.headOut, PolLSTMOut.appendT, h]

lemma polForward_chain (expQ tanhQ : ℚ → ℚ) (net : PolNetLSTMV)
    (hcell : cellKeepsSize net.cell net.cell_size) (xs : List (List ℚ)) :
    ∀ hs : HiddenPair, hs.1.length = net.cell_size → hs.2.length = net.cell_size →
      net.forward expQ tanhQ xs hs (List.replicate xs.length 0)
        = net.chainSteps expQ tanhQ xs hs := by
  induction xs with
  | nil =>
    intro hs h1 h2
    rw [polForward_eq expQ tanhQ net [] _ hs h1 h2]
    show some (net.headOut expQ tanhQ [], hs) = some (net.emptyOut, hs)
    rw [headOut_nil]
  | cons x xs ih =>
    intro hs h1 h2
    have hstep := hcell ((net.input_layer.apply x).map relu) hs
    have e1 : net.forward expQ tanhQ [x] hs [0]
        = some (net.headOut expQ tanhQ
            [(net.cell ((net.input_layer.apply x).map relu) hs).1],
          net.cell ((net.input_layer.apply x).map relu) hs) := by
      rw [polForward_eq expQ tanhQ net [x] [0] hs h1 h2]
      simp only [List.map_cons, List.map_nil, lstmScan_single_zero]
    have e2 : net.chainSteps expQ tanhQ xs (net.cell ((net.input_layer.apply x).map relu) hs)
        = some (net.headOut expQ tanhQ
            (lstmScan net.cell (xs.map (fun y => (net.input_layer.apply y).map relu))
              (List.replicate xs.length 0)
              (net.cell ((net.input_layer.apply x).map relu) hs)).1,
          (lstmScan net.cell (xs.map (fun y => (net.input_layer.apply y).map relu))
              (List.replicate xs.length 0)
              (net.cell ((net.input_layer.apply x).map relu) hs)).2) := by
      rw [← ih _ hstep.1 hstep.2,
        polForward_eq expQ tanhQ net xs _ _ hstep.1 hstep.2]
    rw [polForward_eq expQ tanhQ net (x :: xs) _ hs h1 h2]
    simp only [List.length_cons, List.replicate_succ, List.map_cons, lstmScan_cons_zero]
    simp only [PolNetLSTMV.chainSteps, e1, e2]
    rw [headOut_append]
    simp

lemma vForward_chain (net : VNetLSTMV)
    (hcell : cellKeepsSize net.cell net.cell_size) (xs : List (List ℚ)) :
    ∀ hs : HiddenPair, hs.1.length = net.cell_size → hs.2.length = net.cell_size →
      net.forward xs hs (List.replicate xs.length 0) = net.chainSteps xs hs := by
  induction xs with
  | nil =>
    intro hs h1 h2
    rw [vForward_eq net [] _ hs h1 h2]
    show some (([] : List (List ℚ)), hs) = some ([], hs)
    rfl
  | cons x xs ih =>
    intro hs h1 h2
    have hstep := hcell ((net.input_layer.apply x).map relu) hs
    have e1 : net.forward [x] hs [0]
        = some ([net.output_layer.apply
            (net.cell ((net.input_layer.apply x).map relu) hs).1],
          net.cell ((net.input_layer.apply x).map relu) hs) := by
      rw [vForward_eq net [x] [0] hs h1 h2]
      simp only [List.map_cons, List.map_nil, lstmScan_single_zero]
    have e2 : net.chainSteps xs (net.cell ((net.input_layer.apply x).map relu) hs)
        = some ((lstmScan net.cell (xs.map (fun y => (net.input_layer.apply y).map relu))
              (List.replicate xs.length 0)
              (net.cell ((net.input_layer.apply x).map relu) hs)).1.map
            (fun h => net.output_layer.apply h),
          (lstmScan net.cell (xs.map (fun y => (net.input_layer.apply y).map relu))
              (List.replicate xs.length 0)
              (net.cell ((net.input_layer.apply x).map relu) hs)).2) := by
      rw [← ih _ hstep.1 hstep.2, vForward_eq net xs _ _ hstep.1 hstep.2]
    rw [vForward_eq net (x :: xs) _ hs h1 h2]
    simp only [List.length_cons, List.replicate_succ, List.map_cons, lstmScan_cons_zero]
    simp only [VNetLSTMV.chainSteps, e1, e2]
    simp

/-! ## Claims C4 and C10 -/

/-- Claim C4: for both recurrent modules, one forward call over a length-`T`
sequence with an all-zero mask returns exactly the per-timestep outputs and
final hidden pair of `T` sequential single-step forward calls threading the
hidden pair manually (`chainSteps`). -/
theorem C4_sequence_equals_chained_steps (expQ tanhQ : ℚ → ℚ)
    (pnet : PolNetLSTMV) (hpc : cellKeepsSize pnet.cell pnet.cell_size)
    (xs1 : List (List ℚ)) (hs1 : HiddenPair)
    (hp1 : hs1.1.length = pnet.cell_size) (hp2 : hs1.2.length = pnet.cell_size)
    (vnet : VNetLSTMV) (hvc : cellKeepsSize vnet.cell vnet.cell_size)
    (xs2 : List (List ℚ)) (hs2 : HiddenPair)
    (hv1 : hs2.1.length = vnet.cell_size) (hv2 : hs2.2.length = vnet.cell_size) :
    pnet.forward expQ tanhQ xs1 hs1 (List.replicate xs1.length 0)
        = pnet.chainSteps expQ tanhQ xs1 hs1
    ∧ vnet.forward xs2 hs2 (List.replicate xs2.length 0) = vnet.chainSteps xs2 hs2 :=
  ⟨polForward_chain expQ tanhQ pnet hpc xs1 hs1 hp1 hp2,
   vForward_chain vnet hvc xs2 hs2 hv1 hv2⟩

/-- Witness for `C4_sequence_equals_chained_steps` on the tiny concrete
modules and a two-step sequence. -/
theorem C4_sequence_equals_chained_steps_witness :
    cellKeepsSize tinyPolLSTM.cell tinyPolLSTM.cell_size ∧
    ([(0:ℚ)], [(0:ℚ)]).1.length = tinyPolLSTM.cell_size ∧
    ([(0:ℚ)], [(0:ℚ)]).2.length = tinyPolLSTM.cell_size ∧
    cellKeepsSize tinyVLSTM.cell tinyVLSTM.cell_size ∧
    (tinyPolLSTM.forward (fun x => x) (fun x => x) [[(5:ℚ)], [(7:ℚ)]] ([0], [0])
          (List.replicate [[(5:ℚ)], [(7:ℚ)]].length 0)
        = tinyPolLSTM.chainSteps (fun x => x) (fun x => x) [[(5:ℚ)], [(7:ℚ)]] ([0], [0])
      ∧ tinyVLSTM.forward [[(5:ℚ)], [(7:ℚ)]] ([0], [0])
            (List.replicate [[(5:ℚ)], [(7:ℚ)]].length 0)
          = tinyVLSTM.chainSteps [[(5:ℚ)], [(7:ℚ)]] ([0], [0])) :=
  ⟨fun _ _ => ⟨rfl, rfl⟩, rfl, rfl, fun _ _ => ⟨rfl, rfl⟩,
   C4_sequence_equals_chained_steps (fun x => x) (fun x => x)
     tinyPolLSTM (fun _ _ => ⟨rfl, rfl⟩) [[(5:ℚ)], [(7:ℚ)]] ([0], [0]) rfl rfl
     tinyVLSTM (fun _ _ => ⟨rfl, rfl⟩) [[(5:ℚ)], [(7:ℚ)]] ([0], [0]) rfl rfl⟩

lemma lstmScan_mask_fold (cell : List ℚ → HiddenPair → HiddenPair)
    (x : List ℚ) (xs : List (List ℚ)) (m : ℚ) (ms : List ℚ) (hs : HiddenPair) :
    lstmScan cell (x :: xs) (m :: ms) hs
      = lstmScan cell (x :: xs) (0 :: ms) (maskHs m hs) := by
  simp [lstmScan, maskHs_zero]

lemma polForward_mask_fold (expQ tanhQ : ℚ → ℚ) (net : PolNetLSTMV)
    (x : List ℚ) (xs : List (List ℚ)) (m : ℚ) (ms : List ℚ) (hs : HiddenPair) :
    net.forward expQ tanhQ (x :: xs) hs (m :: ms)
      = net.forward expQ tanhQ (x :: xs) (maskHs m hs) (0 :: ms) := by
  obtain ⟨a, b⟩ := hs
  by_cases h1 : a.length = net.cell_size
  · by_cases h2 : b.length = net.cell_size
    · rw [polForward_eq expQ tanhQ net (x :: xs) (m :: ms) (a, b) h1 h2,
        polForward_eq expQ tanhQ net (x :: xs) (0 :: ms) (maskHs m (a, b))
          (by simp [maskHs, h1]) (by simp [maskHs, h2]),
        List.map_cons, lstmScan_mask_fold]
    · simp [PolNetLSTMV.forward, reshapeTo, maskHs, h2]
  · simp [PolNetLSTMV.forward, reshapeTo, maskHs, h1]

lemma vForward_mask_fold (net : VNetLSTMV)
    (x : List ℚ) (xs : List (List ℚ)) (m : ℚ) (ms : List ℚ) (hs : HiddenPair) :
    net.forward (x :: xs) hs (m :: ms)
      = net.forward (x :: xs) (maskHs m hs) (0 :: ms) := by
  obtain ⟨a, b⟩ := hs
  by_cases h1 : a.length = net.cell_size
  · by_cases h2 : b.length = net.cell_size
    · rw [vForward_eq net (x :: xs) (m :: ms) (a, b) h1 h2,
        vForward_eq net (x :: xs) (0 :: ms) (maskHs m (a, b))
          (by simp [maskHs, h1]) (by simp [maskHs, h2]),
        List.map_cons, lstmScan_mask_fold]
    · simp [VNetLSTMV.forward, reshapeTo, maskHs, h2]
  · simp [VNetLSTMV.forward, reshapeTo, maskHs, h1]

/-- Claim C10: before each timestep the carried hidden pair is multiplied
elementwise by `1 - mask`, whatever the mask value is: running forward with
first mask `m` from state `hs` equals running with first mask `0` from the
pre-scaled state `maskHs m hs`, for both recurrent modules; and for
`0 < m < 1` the scaling is strictly proportional — a nonzero entry is
neither zeroed nor preserved. -/
theorem C10_fractional_mask_scales (expQ tanhQ : ℚ → ℚ)
    (pnet : PolNetLSTMV) (vnet : VNetLSTMV)
    (x1 x2 : List ℚ) (xs1 xs2 : List (List ℚ)) (m : ℚ) (ms1 ms2 : List ℚ)
    (hsp hsv : HiddenPair) (hm0 : 0 < m) (hm1 : m < 1) :
    pnet.forward expQ tanhQ (x1 :: xs1) hsp (m :: ms1)
        = pnet.forward expQ tanhQ (x1 :: xs1) (maskHs m hsp) (0 :: ms1)
    ∧ vnet.forward (x2 :: xs2) hsv (m :: ms2)
        = vnet.forward (x2 :: xs2) (maskHs m hsv) (0 :: ms2)
    ∧ (∀ a : ℚ, a ≠ 0 → (1 - m) * a ≠ 0 ∧ (1 - m) * a ≠ a) := by
  refine ⟨polForward_mask_fold expQ tanhQ pnet x1 xs1 m ms1 hsp,
    vForward_mask_fold vnet x2 xs2 m ms2 hsv, ?_⟩
  intro a ha
  constructor
  · exact mul_ne_zero (by linarith [hm1]) ha
  · intro hcontra
    have : m * a = 0 := by ring_nf; linarith [hcontra, sub_mul 1 m a]
    rcases mul_eq_zero.mp this with h | h
    · exact absurd h (ne_of_gt hm0)
    · exact ha h

/-- Witness for `C10_fractional_mask_scales` on the tiny concrete modules
with mask `1/2`. -/
theorem C10_fractional_mask_scales_witness :
    (0 < (1/2 : ℚ)) ∧ ((1/2 : ℚ) < 1) ∧
    (tinyPolLSTM.forward (fun x => x) (fun x => x) [[(5:ℚ)]] ([2], [3]) [1/2]
        = tinyPolLSTM.forward (fun x => x) (fun x => x) [[(5:ℚ)]]
            (maskHs (1/2) ([2], [3])) [0]
      ∧ tinyVLSTM.forward [[(5:ℚ)]] ([2], [3]) [1/2]
          = tinyVLSTM.forward [[(5:ℚ)]] (maskHs (1/2) ([2], [3])) [0]
      ∧ (∀ a : ℚ, a ≠ 0 → (1 - 1/2) * a ≠ 0 ∧ (1 - 1/2) * a ≠ a)) :=
  ⟨by norm_num, by norm_num,
   C10_fractional_mask_scales (fun x => x) (fun x => x) tinyPolLSTM tinyVLSTM
     [(5:ℚ)] [(5:ℚ)] [] [] (1/2) [] [] ([2], [3]) ([2], [3])
     (by norm_num) (by norm_num)⟩
